import Mathlib

/-!
Shallow embedding of the Blue Carbon MRV registry:
the Solidity contracts BlueCarbon (ERC20 credits), NFTCertificate (ERC721
certificates) and CarbonRegistry (project registry), plus the Express
server storage and verification route.

Modelling conventions:
  - Ethereum addresses are natural numbers; 0 is the zero address.
  - Solidity mappings are total functions with the type's default value,
    updated pointwise.
  - keccak256 over the abi-encoded tuple is modelled as the tuple itself,
    i.e. the hash is treated as injective (collision-freeness assumption).
  - A reverting call is modelled by an Except error; the caller keeps the
    pre-call state (EVM transaction revert semantics).
  - uint256 amounts are Nat; overflow checks of Solidity 0.8 never fire in
    the statements proved here, so wrap-around is not modelled.
-/

/-- Ethereum account address; 0 stands for address(0). -/
abbrev Address := Nat

/-- Pointwise update of a Solidity mapping. -/
def setAt {α β : Type} [DecidableEq α] (f : α → β) (k : α) (v : β) : α → β :=
  fun x => if x = k then v else f x

theorem setAt_same {α β : Type} [DecidableEq α] (f : α → β) (k : α) (v : β) :
    setAt f k v k = v := by
  simp [setAt]

theorem setAt_other {α β : Type} [DecidableEq α] (f : α → β) (k : α) (v : β)
    (x : α) (h : x ≠ k) : setAt f k v x = f x := by
  simp [setAt, h]

namespace BlueCarbon

/-- Storage of the BlueCarbon ERC20 contract (contracts/BlueCarbon.sol). -/
structure TokenState where
  adminRole : Address → Bool
  ngoRole : Address → Bool
  verifiedProjects : String → Bool
  projectCredits : String → Nat
  totalProjectsVerified : Nat
  totalCreditsIssued : Nat
  totalCreditsRetired : Nat
  balances : Address → Nat
  totalSupply : Nat

/-- Revert reasons of BlueCarbon, one per require message. -/
inductive TokenError where
  | notAdmin
  | projectAlreadyVerified
  | zeroCredits
  | invalidNGOAddress
  | zeroAmount
  | insufficientBalance
  deriving DecidableEq, Repr

/-- BlueCarbon.verifyProjectAndMint: onlyAdmin; requires the project not
already verified, a positive credits amount and a nonzero NGO address;
marks the project verified, records its credits, updates the statistics and
mints creditsAmount * 10^18 base units to the NGO. -/
def verifyProjectAndMint (s : TokenState) (sender : Address) (projectId : String)
    (ngoAddress : Address) (creditsAmount : Nat) : Except TokenError TokenState :=
  if s.adminRole sender = false then .error .notAdmin
  else if s.verifiedProjects projectId = true then .error .projectAlreadyVerified
  else if creditsAmount = 0 then .error .zeroCredits
  else if ngoAddress = 0 then .error .invalidNGOAddress
  else .ok { s with
    verifiedProjects := setAt s.verifiedProjects projectId true,
    projectCredits := setAt s.projectCredits projectId creditsAmount,
    totalProjectsVerified := s.totalProjectsVerified + 1,
    totalCreditsIssued := s.totalCreditsIssued + creditsAmount,
    balances := setAt s.balances ngoAddress
      (s.balances ngoAddress + creditsAmount * 10 ^ 18),
    totalSupply := s.totalSupply + creditsAmount * 10 ^ 18 }

/-- BlueCarbon.grantAdminRole: onlyAdmin; grants ADMIN_ROLE. -/
def grantAdminRole (s : TokenState) (sender admin : Address) :
    Except TokenError TokenState :=
  if s.adminRole sender = false then .error .notAdmin
  else .ok { s with adminRole := setAt s.adminRole admin true }

/-- BlueCarbon.grantNGORole: onlyAdmin; grants NGO_ROLE. -/
def grantNGORole (s : TokenState) (sender ngo : Address) :
    Except TokenError TokenState :=
  if s.adminRole sender = false then .error .notAdmin
  else .ok { s with ngoRole := setAt s.ngoRole ngo true }

/-- BlueCarbon.retireCredits: requires a positive amount covered by the
caller's balance; adds to totalCreditsRetired and burns the amount. -/
def retireCredits (s : TokenState) (sender : Address) (amount : Nat) :
    Except TokenError TokenState :=
  if amount = 0 then .error .zeroAmount
  else if s.balances sender < amount then .error .insufficientBalance
  else .ok { s with
    totalCreditsRetired := s.totalCreditsRetired + amount,
    balances := setAt s.balances sender (s.balances sender - amount),
    totalSupply := s.totalSupply - amount }

end BlueCarbon

namespace NFTCertificate

/-- Per-token plantation record stored by NFTCertificate. -/
structure PlantationData where
  projectId : String
  location : String
  areaHectares : Nat
  carbonCredits : Nat
  plantationDate : Nat
  ecosystem : String
  beneficiary : Address
  verified : Bool
  deriving DecidableEq, Repr

/-- Storage of the NFTCertificate ERC721 contract
(contracts/NFTCertificate.sol). The owners map doubles as the ERC721
existence predicate: a token exists iff its owner entry is some address. -/
structure CertState where
  owner : Address
  tokenIdCounter : Nat
  owners : Nat → Option Address
  balances : Address → Nat
  tokenURIs : Nat → Option String
  projectToTokenId : String → Nat
  tokenToProject : Nat → Option PlantationData
  projectCertified : String → Bool

/-- Revert reasons of NFTCertificate. -/
inductive CertError where
  | notOwner
  | projectAlreadyCertified
  | invalidBeneficiary
  | zeroArea
  | tokenAlreadyMinted
  | invalidTokenId
  deriving DecidableEq, Repr

/-- NFTCertificate.mintCertificate: onlyOwner; requires the project not
already certified, a nonzero beneficiary and a positive area; allocates the
next token id, stores the plantation data, updates the project mappings,
mints the token and sets its URI, returning the new token id. The ERC721
fresh-token check of safeMint is kept explicitly. The onERC721Received
callback is not modelled (beneficiaries are externally owned accounts). -/
def mintCertificate (s : CertState) (sender : Address) (projectId location : String)
    (areaHectares carbonCredits : Nat) (ecosystem : String) (beneficiary : Address)
    (metadataURI : String) (timestamp : Nat) : Except CertError (CertState × Nat) :=
  if sender ≠ s.owner then .error .notOwner
  else if s.projectCertified projectId = true then .error .projectAlreadyCertified
  else if beneficiary = 0 then .error .invalidBeneficiary
  else if areaHectares = 0 then .error .zeroArea
  else
    let tokenId := s.tokenIdCounter
    if (s.owners tokenId).isSome then .error .tokenAlreadyMinted
    else .ok ({ s with
      tokenIdCounter := tokenId + 1,
      tokenToProject := setAt s.tokenToProject tokenId (some
        { projectId := projectId, location := location,
          areaHectares := areaHectares, carbonCredits := carbonCredits,
          plantationDate := timestamp, ecosystem := ecosystem,
          beneficiary := beneficiary, verified := true }),
      projectToTokenId := setAt s.projectToTokenId projectId tokenId,
      projectCertified := setAt s.projectCertified projectId true,
      owners := setAt s.owners tokenId (some beneficiary),
      balances := setAt s.balances beneficiary (s.balances beneficiary + 1),
      tokenURIs := setAt s.tokenURIs tokenId (some metadataURI) }, tokenId)

/-- NFTCertificate burn override: ERC721 burn of an existing token (clears
owner, balance and URI), then the contract-specific cleanup: delete the
plantation record and the project-to-token entry and reset the certified
flag of the owning project. -/
def burn (s : CertState) (tokenId : Nat) : Except CertError CertState :=
  match s.owners tokenId with
  | none => .error .invalidTokenId
  | some o =>
    let pid := match s.tokenToProject tokenId with
      | some pd => pd.projectId
      | none => ""
    .ok { s with
      owners := setAt s.owners tokenId none,
      balances := setAt s.balances o (s.balances o - 1),
      tokenURIs := setAt s.tokenURIs tokenId none,
      tokenToProject := setAt s.tokenToProject tokenId none,
      projectToTokenId := setAt s.projectToTokenId pid 0,
      projectCertified := setAt s.projectCertified pid false }

/-- Ownable.transferOwnership as inherited by NFTCertificate: onlyOwner,
new owner must be nonzero. -/
def transferOwnership (s : CertState) (sender newOwner : Address) :
    Except CertError CertState :=
  if sender ≠ s.owner then .error .notOwner
  else if newOwner = 0 then .error .invalidBeneficiary
  else .ok { s with owner := newOwner }

end NFTCertificate

namespace CarbonRegistry

/-- Project status enum of CarbonRegistry.sol. The Solidity enum has
exactly these four members; there is no Verifying member. -/
inductive ProjectStatus where
  | pending
  | verified
  | rejected
  | locked
  deriving DecidableEq, Repr

/-- Location fingerprint preimage: keccak256(abi.encodePacked(latitude,
longitude, areaHectares)), modelled as the encoded triple. -/
abbrev LocationHash := String × String × Nat

/-- Evidence fingerprint preimage: keccak256(abi.encodePacked(projectId,
ipfsDataHash, msg.sender)), modelled as the encoded triple. -/
abbrev DataHash := String × String × Address

/-- RegisteredProject struct of CarbonRegistry.sol. -/
structure RegisteredProject where
  projectId : String
  submitter : Address
  areaHectares : Nat
  location : String
  locationHash : LocationHash
  dataHash : DataHash
  status : ProjectStatus
  submissionTime : Nat
  verificationTime : Nat
  verifier : Address
  carbonCredits : Nat
  nftTokenId : Nat
  nftMinted : Bool
  deriving DecidableEq, Repr

/-- Storage of CarbonRegistry.sol. The Solidity existence test
bytes(projects[id].projectId).length > 0 is modelled with an Option value:
registerProject only ever stores records with a nonempty projectId, so a
stored record is exactly a record that passes the Solidity test. -/
structure RegistryState where
  owner : Address
  projects : String → Option RegisteredProject
  usedLocationHashes : LocationHash → Bool
  usedDataHashes : DataHash → Bool
  submitterProjects : Address → List String
  authorizedVerifiers : Address → Bool
  totalRegisteredProjects : Nat
  totalVerifiedProjects : Nat
  totalRejectedProjects : Nat

/-- Revert reasons of CarbonRegistry, one per require message, plus the
propagated failures of the two external mint calls. -/
inductive RegistryError where
  | emptyProjectId
  | zeroArea
  | projectIdExists
  | locationAlreadyRegistered
  | dataAlreadySubmitted
  | notAuthorizedVerifier
  | projectDoesNotExist
  | projectNotPending
  | zeroCarbonCredits
  | projectNotLocked
  | notOwner
  | invalidVerifierAddress
  | tokenFailure (e : BlueCarbon.TokenError)
  | certFailure (e : NFTCertificate.CertError)
  deriving DecidableEq, Repr

/-- The spec error taxonomy groups the empty-id, zero-area and
id-already-exists reverts as InvalidInput. -/
def RegistryError.isInvalidInput : RegistryError → Bool
  | .emptyProjectId => true
  | .zeroArea => true
  | .projectIdExists => true
  | _ => false

/-- The fresh RegisteredProject record built by registerProject. -/
def newProject (sender : Address) (pid : String) (area : Nat)
    (loc lat lng ipfs : String) (t : Nat) : RegisteredProject :=
  { projectId := pid, submitter := sender, areaHectares := area,
    location := loc, locationHash := (lat, lng, area),
    dataHash := (pid, ipfs, sender), status := .pending,
    submissionTime := t, verificationTime := 0, verifier := 0,
    carbonCredits := 0, nftTokenId := 0, nftMinted := false }

/-- CarbonRegistry.registerProject: requires a nonempty id, positive area
and fresh id; computes the two fingerprints; requires both unused; stores
the Pending project, marks both fingerprints used, appends the id to the
submitter's list and bumps the counter. -/
def registerProject (s : RegistryState) (sender : Address) (pid : String)
    (area : Nat) (loc lat lng ipfs : String) (t : Nat) :
    Except RegistryError RegistryState :=
  if pid = "" then .error .emptyProjectId
  else if area = 0 then .error .zeroArea
  else if (s.projects pid).isSome then .error .projectIdExists
  else if s.usedLocationHashes (lat, lng, area) = true then
    .error .locationAlreadyRegistered
  else if s.usedDataHashes (pid, ipfs, sender) = true then
    .error .dataAlreadySubmitted
  else .ok { s with
    projects := setAt s.projects pid (some (newProject sender pid area loc lat lng ipfs t)),
    usedLocationHashes := setAt s.usedLocationHashes (lat, lng, area) true,
    usedDataHashes := setAt s.usedDataHashes (pid, ipfs, sender) true,
    submitterProjects := setAt s.submitterProjects sender
      (s.submitterProjects sender ++ [pid]),
    totalRegisteredProjects := s.totalRegisteredProjects + 1 }

/-- CarbonRegistry.rejectProject: onlyAuthorizedVerifier, projectExists;
requires Pending; sets Rejected with verification time and verifier. -/
def rejectProject (s : RegistryState) (sender : Address) (pid : String)
    (t : Nat) : Except RegistryError RegistryState :=
  if s.authorizedVerifiers sender = false then .error .notAuthorizedVerifier
  else match s.projects pid with
  | none => .error .projectDoesNotExist
  | some p =>
    if p.status ≠ .pending then .error .projectNotPending
    else .ok { s with
      projects := setAt s.projects pid (some
        { p with status := .rejected, verificationTime := t, verifier := sender }),
      totalRejectedProjects := s.totalRejectedProjects + 1 }

/-- CarbonRegistry.lockProject: onlyOwner, projectExists; sets Locked
unconditionally. The prior status is not saved anywhere. -/
def lockProject (s : RegistryState) (sender : Address) (pid : String) :
    Except RegistryError RegistryState :=
  if sender ≠ s.owner then .error .notOwner
  else match s.projects pid with
  | none => .error .projectDoesNotExist
  | some p =>
    .ok { s with projects := setAt s.projects pid (some { p with status := .locked }) }

/-- CarbonRegistry.unlockProject: onlyOwner, projectExists; requires the
status to be Locked and then sets it to Pending, whatever it was before the
lock. -/
def unlockProject (s : RegistryState) (sender : Address) (pid : String) :
    Except RegistryError RegistryState :=
  if sender ≠ s.owner then .error .notOwner
  else match s.projects pid with
  | none => .error .projectDoesNotExist
  | some p =>
    if p.status ≠ .locked then .error .projectNotLocked
    else .ok { s with projects := setAt s.projects pid (some { p with status := .pending }) }

/-- CarbonRegistry.authorizeVerifier: onlyOwner, nonzero address. -/
def authorizeVerifier (s : RegistryState) (sender verifier : Address) :
    Except RegistryError RegistryState :=
  if sender ≠ s.owner then .error .notOwner
  else if verifier = 0 then .error .invalidVerifierAddress
  else .ok { s with authorizedVerifiers := setAt s.authorizedVerifiers verifier true }

/-- CarbonRegistry.revokeVerifier: onlyOwner. -/
def revokeVerifier (s : RegistryState) (sender verifier : Address) :
    Except RegistryError RegistryState :=
  if sender ≠ s.owner then .error .notOwner
  else .ok { s with authorizedVerifiers := setAt s.authorizedVerifiers verifier false }

/-- Lock immediately followed by unlock by the same caller. -/
def lockThenUnlock (s : RegistryState) (sender : Address) (pid : String) :
    Except RegistryError RegistryState :=
  (lockProject s sender pid).bind (fun s1 => unlockProject s1 sender pid)

/-- Status of a stored project, if any. -/
def projectStatus (s : RegistryState) (pid : String) : Option ProjectStatus :=
  (s.projects pid).map (fun p => p.status)

end CarbonRegistry

/-- The deployed system: the registry contract storage, the two external
token contracts it calls, and the registry's own account address (the
msg.sender the token contracts observe during those calls). -/
structure ChainState where
  registryAddr : Address
  registry : CarbonRegistry.RegistryState
  token : BlueCarbon.TokenState
  cert : NFTCertificate.CertState

/-- External mint primitives invoked by CarbonRegistry.verifyProjectAndMint,
recorded in invocation order (a call is recorded even if it reverts). -/
inductive ExtCall where
  | fungibleMint
  | certificateMint
  deriving DecidableEq, Repr

namespace CarbonRegistry

/-- CarbonRegistry.verifyProjectAndMint with its external-call trace:
onlyAuthorizedVerifier, projectExists; requires Pending status and positive
credits; updates the project to Verified; then calls the BlueCarbon
fungible mint and, if that succeeded, the NFTCertificate mint; stores the
token id and bumps the verified counter. Any sub-call failure makes the
whole transaction revert. -/
def verifyProjectAndMintT (c : ChainState) (sender : Address) (pid : String)
    (carbonCredits : Nat) (metadataURI ecosystem : String) (t : Nat) :
    Except RegistryError ChainState × List ExtCall :=
  if c.registry.authorizedVerifiers sender = false then
    (.error .notAuthorizedVerifier, [])
  else match c.registry.projects pid with
  | none => (.error .projectDoesNotExist, [])
  | some project =>
    if project.status ≠ .pending then (.error .projectNotPending, [])
    else if carbonCredits = 0 then (.error .zeroCarbonCredits, [])
    else
      let project1 := { project with
        status := ProjectStatus.verified, verificationTime := t,
        verifier := sender, carbonCredits := carbonCredits }
      match BlueCarbon.verifyProjectAndMint c.token c.registryAddr pid
          project.submitter carbonCredits with
      | .error e => (.error (.tokenFailure e), [.fungibleMint])
      | .ok token1 =>
        match NFTCertificate.mintCertificate c.cert c.registryAddr pid
            project.location project.areaHectares carbonCredits ecosystem
            project.submitter metadataURI t with
        | .error e => (.error (.certFailure e), [.fungibleMint, .certificateMint])
        | .ok (cert1, nftTokenId) =>
          let project2 := { project1 with nftTokenId := nftTokenId, nftMinted := true }
          (.ok { c with
            registry := { c.registry with
              projects := setAt c.registry.projects pid (some project2),
              totalVerifiedProjects := c.registry.totalVerifiedProjects + 1 },
            token := token1,
            cert := cert1 }, [.fungibleMint, .certificateMint])

/-- CarbonRegistry.verifyProjectAndMint, result only. -/
def verifyProjectAndMint (c : ChainState) (sender : Address) (pid : String)
    (carbonCredits : Nat) (metadataURI ecosystem : String) (t : Nat) :
    Except RegistryError ChainState :=
  (verifyProjectAndMintT c sender pid carbonCredits metadataURI ecosystem t).1

end CarbonRegistry

/-- One external transaction against the deployed system. -/
inductive Op where
  | register (sender : Address) (pid : String) (area : Nat)
      (loc lat lng ipfs : String) (t : Nat)
  | verifyAndMint (sender : Address) (pid : String) (carbonCredits : Nat)
      (metadataURI ecosystem : String) (t : Nat)
  | reject (sender : Address) (pid : String) (t : Nat)
  | lock (sender : Address) (pid : String)
  | unlock (sender : Address) (pid : String)
  | authorizeVerifier (sender verifier : Address)
  | revokeVerifier (sender verifier : Address)
  | grantAdminRole (sender admin : Address)
  | grantNGORole (sender ngo : Address)
  | tokenMintDirect (sender : Address) (pid : String) (ngo : Address) (credits : Nat)
  | retireCredits (sender : Address) (amount : Nat)
  | certMintDirect (sender : Address) (pid loc : String) (area credits : Nat)
      (ecosystem : String) (beneficiary : Address) (uri : String) (t : Nat)
  | certBurn (tokenId : Nat)
  | certTransferOwnership (sender newOwner : Address)

/-- Lift a registry-storage result to the chain. -/
def withRegistry (c : ChainState)
    (r : Except CarbonRegistry.RegistryError CarbonRegistry.RegistryState) :
    Except CarbonRegistry.RegistryError ChainState :=
  match r with
  | .ok s => .ok { c with registry := s }
  | .error e => .error e

/-- Lift a BlueCarbon result to the chain. -/
def withToken (c : ChainState)
    (r : Except BlueCarbon.TokenError BlueCarbon.TokenState) :
    Except CarbonRegistry.RegistryError ChainState :=
  match r with
  | .ok s => .ok { c with token := s }
  | .error e => .error (.tokenFailure e)

/-- Lift an NFTCertificate result to the chain. -/
def withCert (c : ChainState)
    (r : Except NFTCertificate.CertError NFTCertificate.CertState) :
    Except CarbonRegistry.RegistryError ChainState :=
  match r with
  | .ok s => .ok { c with cert := s }
  | .error e => .error (.certFailure e)

/-- Execute one transaction, propagating the revert reason if any. -/
def applyOp (c : ChainState) : Op → Except CarbonRegistry.RegistryError ChainState
  | .register sender pid area loc lat lng ipfs t =>
    withRegistry c (CarbonRegistry.registerProject c.registry sender pid area loc lat lng ipfs t)
  | .verifyAndMint sender pid credits uri eco t =>
    CarbonRegistry.verifyProjectAndMint c sender pid credits uri eco t
  | .reject sender pid t =>
    withRegistry c (CarbonRegistry.rejectProject c.registry sender pid t)
  | .lock sender pid =>
    withRegistry c (CarbonRegistry.lockProject c.registry sender pid)
  | .unlock sender pid =>
    withRegistry c (CarbonRegistry.unlockProject c.registry sender pid)
  | .authorizeVerifier sender v =>
    withRegistry c (CarbonRegistry.authorizeVerifier c.registry sender v)
  | .revokeVerifier sender v =>
    withRegistry c (CarbonRegistry.revokeVerifier c.registry sender v)
  | .grantAdminRole sender a =>
    withToken c (BlueCarbon.grantAdminRole c.token sender a)
  | .grantNGORole sender n =>
    withToken c (BlueCarbon.grantNGORole c.token sender n)
  | .tokenMintDirect sender pid ngo credits =>
    withToken c (BlueCarbon.verifyProjectAndMint c.token sender pid ngo credits)
  | .retireCredits sender amount =>
    withToken c (BlueCarbon.retireCredits c.token sender amount)
  | .certMintDirect sender pid loc area credits eco ben uri t =>
    match NFTCertificate.mintCertificate c.cert sender pid loc area credits eco ben uri t with
    | .ok (s, _) => .ok { c with cert := s }
    | .error e => .error (.certFailure e)
  | .certBurn tokenId =>
    withCert c (NFTCertificate.burn c.cert tokenId)
  | .certTransferOwnership sender newOwner =>
    withCert c (NFTCertificate.transferOwnership c.cert sender newOwner)

/-- Execute one transaction with revert semantics: a failed transaction
leaves the state unchanged. -/
def runOp (c : ChainState) (op : Op) : ChainState :=
  match applyOp c op with
  | .ok c1 => c1
  | .error _ => c

/-- State right after deployment: the registry deployer is its Ownable
owner and the one authorized verifier, the token deployer holds the admin
role, the certificate deployer is its owner; all maps are empty. -/
def initState (deployer registryAddr : Address) : ChainState :=
  { registryAddr := registryAddr,
    registry :=
      { owner := deployer,
        projects := fun _ => none,
        usedLocationHashes := fun _ => false,
        usedDataHashes := fun _ => false,
        submitterProjects := fun _ => [],
        authorizedVerifiers := fun a => a == deployer,
        totalRegisteredProjects := 0,
        totalVerifiedProjects := 0,
        totalRejectedProjects := 0 },
    token :=
      { adminRole := fun a => a == deployer,
        ngoRole := fun _ => false,
        verifiedProjects := fun _ => false,
        projectCredits := fun _ => 0,
        totalProjectsVerified := 0,
        totalCreditsIssued := 0,
        totalCreditsRetired := 0,
        balances := fun _ => 0,
        totalSupply := 0 },
    cert :=
      { owner := deployer,
        tokenIdCounter := 0,
        owners := fun _ => none,
        balances := fun _ => 0,
        tokenURIs := fun _ => none,
        projectToTokenId := fun _ => 0,
        tokenToProject := fun _ => none,
        projectCertified := fun _ => false } }

/-- States reachable from a deployment by any transaction sequence. -/
inductive Reachable : ChainState → Prop
  | init (deployer registryAddr : Address) : Reachable (initState deployer registryAddr)
  | step {c : ChainState} (h : Reachable c) (op : Op) : Reachable (runOp c op)

namespace DatabaseStorage

/-- A row of the audit_logs table (shared/schema.ts): every transition
insert goes through createAuditLog with these fields. -/
structure AuditLog where
  projectId : String
  userId : String
  action : String
  timestamp : Nat
  deriving DecidableEq, Repr

/-- Insert an entry into a list kept in descending timestamp order. -/
def insertByTimestampDesc (e : AuditLog) : List AuditLog → List AuditLog
  | [] => [e]
  | x :: xs =>
    if e.timestamp ≤ x.timestamp then x :: insertByTimestampDesc e xs
    else e :: x :: xs

/-- Arrange a list in descending timestamp order, the order produced by the
SQL clause orderBy(desc(auditLogs.timestamp)). -/
def orderByTimestampDesc : List AuditLog → List AuditLog
  | [] => []
  | x :: xs => insertByTimestampDesc x (orderByTimestampDesc xs)

/-- DatabaseStorage.getAuditLogs (server/storage.ts): select the rows,
filtered by project id when one is given, ordered by descending timestamp.
The stored table is modelled as the list of appended entries. -/
def getAuditLogs (logs : List AuditLog) (projectId : Option String) :
    List AuditLog :=
  match projectId with
  | some pid => orderByTimestampDesc (logs.filter (fun l => l.projectId == pid))
  | none => orderByTimestampDesc logs

end DatabaseStorage

namespace Routes

/-- The columns of a projects row (shared/schema.ts) that the verify route
reads or writes. carbonCredits is a decimal column with database default
"0", modelled as a rational. -/
structure ServerProject where
  id : String
  status : String
  verifiedBy : Option String
  verifiedAt : Option Nat
  carbonCredits : ℚ
  blockchainTxHash : Option String
  deriving DecidableEq, Repr

/-- Response of the verify route: 400 on a bad status, otherwise the
updated project row and the audit log entry it inserts. -/
inductive VerifyResult where
  | badRequest
  | ok (project : ServerProject) (log : DatabaseStorage.AuditLog)
  deriving DecidableEq, Repr

/-- JavaScript truthiness of the optional carbonCredits request field:
absent, null and 0 are falsy. -/
def truthyCredits : Option ℚ → Bool
  | none => false
  | some c => c != 0

/-- JavaScript truthiness of the optional blockchainTxHash field. -/
def truthyHash : Option String → Bool
  | none => false
  | some h => h != ""

/-- POST /api/projects/:id/verify (server/routes.ts): rejects a status
other than verified or rejected with 400; otherwise updates the project row
with the new status, verifier and time, spreads carbonCredits and
blockchainTxHash into the update only when truthy, and inserts one audit
log entry. No check on the carbonCredits value is performed. -/
def verifyProject (p : ServerProject) (status verifiedBy : String)
    (carbonCredits : Option ℚ) (blockchainTxHash : Option String)
    (now : Nat) : VerifyResult :=
  if status = "verified" ∨ status = "rejected" then
    .ok
      { p with
        status := status,
        verifiedBy := some verifiedBy,
        verifiedAt := some now,
        carbonCredits :=
          if truthyCredits carbonCredits then carbonCredits.getD p.carbonCredits
          else p.carbonCredits,
        blockchainTxHash :=
          if truthyHash blockchainTxHash then blockchainTxHash
          else p.blockchainTxHash }
      { projectId := p.id, userId := verifiedBy,
        action := if status = "verified" then "verified" else "rejected",
        timestamp := now }
  else .badRequest

/-- Status and credits of the project row in a verify-route response. -/
def VerifyResult.statusCredits : VerifyResult → Option (String × ℚ)
  | .badRequest => none
  | .ok p _ => some (p.status, p.carbonCredits)

end Routes

namespace AiVerifier

/-- The fields of the vision analysis JSON that the status decision in
verifyMangroveImage (server/aiVerifier.js) reads. Scores are JavaScript
numbers, modelled as rationals. -/
structure VisionAnalysis where
  verificationConfidence : ℚ
  mangroveCharacteristics : Bool
  anomaliesDetected : Bool
  deriving DecidableEq, Repr

/-- The two values the status decision can produce. -/
inductive VisionStatus where
  | verified
  | suspicious
  deriving DecidableEq, Repr

/-- The status decision of verifyMangroveImage: verified when confidence is
at least 0.8 with mangrove characteristics and no anomaly, still verified
when confidence is at least 0.5 with no anomaly, suspicious otherwise. -/
def verificationStatus (a : VisionAnalysis) : VisionStatus :=
  if 0.8 ≤ a.verificationConfidence ∧ a.mangroveCharacteristics = true ∧
      a.anomaliesDetected = false then .verified
  else if 0.5 ≤ a.verificationConfidence ∧ a.anomaliesDetected = false then .verified
  else .suspicious

end AiVerifier

namespace GisService

/-- The validated flag returned by validateProjectLocation
(server/gisService.js): healthy vegetation exactly when the average NDVI
exceeds 0.3. -/
def validated (averageNDVI : ℚ) : Bool :=
  decide (0.3 < averageNDVI)

end GisService

namespace BlueCarbon

theorem verifyProjectAndMint_already_verified (s : TokenState) (caller : Address)
    (pid : String) (ngo : Address) (amt : Nat)
    (hadm : s.adminRole caller = true) (h : s.verifiedProjects pid = true) :
    verifyProjectAndMint s caller pid ngo amt = .error .projectAlreadyVerified := by
  simp [verifyProjectAndMint, hadm, h]

theorem verifyProjectAndMint_not_ok_of_verified (s : TokenState) (caller : Address)
    (pid : String) (ngo : Address) (amt : Nat)
    (h : s.verifiedProjects pid = true) :
    ∀ s1, verifyProjectAndMint s caller pid ngo amt ≠ .ok s1 := by
  intro s1 hc
  unfold verifyProjectAndMint at hc
  by_cases hadm : s.adminRole caller = false
  · simp [hadm] at hc
  · simp [hadm, h] at hc

theorem verifyProjectAndMint_ok_elim (s : TokenState) (caller : Address)
    (pid : String) (ngo : Address) (amt : Nat) (s1 : TokenState)
    (h : verifyProjectAndMint s caller pid ngo amt = .ok s1) :
    s.adminRole caller = true ∧ s.verifiedProjects pid = false ∧ amt ≠ 0 ∧ ngo ≠ 0 ∧
    s1.verifiedProjects pid = true := by
  unfold verifyProjectAndMint at h
  split at h
  · exact absurd h (by simp)
  split at h
  · exact absurd h (by simp)
  split at h
  · exact absurd h (by simp)
  split at h
  · exact absurd h (by simp)
  rename_i h1 h2 h3 h4
  injection h with h5
  subst h5
  exact ⟨by simpa using h1, by simpa using h2, h3, h4, by simp [setAt_same]⟩

end BlueCarbon

namespace CarbonRegistry

/-- The registry state produced by a successful registration. -/
def registeredState (s : RegistryState) (sender : Address) (pid : String)
    (area : Nat) (loc lat lng ipfs : String) (t : Nat) : RegistryState :=
  { s with
    projects := setAt s.projects pid (some (newProject sender pid area loc lat lng ipfs t)),
    usedLocationHashes := setAt s.usedLocationHashes (lat, lng, area) true,
    usedDataHashes := setAt s.usedDataHashes (pid, ipfs, sender) true,
    submitterProjects := setAt s.submitterProjects sender
      (s.submitterProjects sender ++ [pid]),
    totalRegisteredProjects := s.totalRegisteredProjects + 1 }

theorem registerProject_ok_elim (s : RegistryState) (sender : Address)
    (pid : String) (area : Nat) (loc lat lng ipfs : String) (t : Nat)
    (s1 : RegistryState)
    (h : registerProject s sender pid area loc lat lng ipfs t = .ok s1) :
    pid ≠ "" ∧ area ≠ 0 ∧ s.projects pid = none ∧
    s.usedLocationHashes (lat, lng, area) = false ∧
    s.usedDataHashes (pid, ipfs, sender) = false ∧
    s1 = registeredState s sender pid area loc lat lng ipfs t := by
  unfold registerProject at h
  split at h
  · exact absurd h (by simp)
  split at h
  · exact absurd h (by simp)
  split at h
  · exact absurd h (by simp)
  split at h
  · exact absurd h (by simp)
  split at h
  · exact absurd h (by simp)
  rename_i h1 h2 h3 h4 h5
  injection h with h6
  exact ⟨h1, h2, by simpa using h3, by simpa using h4, by simpa using h5,
    h6.symm⟩

theorem registerProject_eq_ok (s : RegistryState) (sender : Address)
    (pid : String) (area : Nat) (loc lat lng ipfs : String) (t : Nat)
    (h1 : pid ≠ "") (h2 : area ≠ 0) (h3 : s.projects pid = none)
    (h4 : s.usedLocationHashes (lat, lng, area) = false)
    (h5 : s.usedDataHashes (pid, ipfs, sender) = false) :
    registerProject s sender pid area loc lat lng ipfs t =
      .ok (registeredState s sender pid area loc lat lng ipfs t) := by
  unfold registerProject
  rw [if_neg h1, if_neg h2, if_neg (by simp [h3]), if_neg (by simp [h4]),
    if_neg (by simp [h5])]
  rfl

theorem registerProject_location_conflict (s : RegistryState) (sender : Address)
    (pid : String) (area : Nat) (loc lat lng ipfs : String) (t : Nat)
    (h1 : pid ≠ "") (h2 : area ≠ 0) (h3 : s.projects pid = none)
    (h4 : s.usedLocationHashes (lat, lng, area) = true) :
    registerProject s sender pid area loc lat lng ipfs t =
      .error .locationAlreadyRegistered := by
  unfold registerProject
  rw [if_neg h1, if_neg h2, if_neg (by simp [h3]), if_pos h4]

theorem rejectProject_ok_elim (s : RegistryState) (sender : Address)
    (pid : String) (t : Nat) (s1 : RegistryState)
    (h : rejectProject s sender pid t = .ok s1) :
    ∃ p, s.projects pid = some p ∧
      s1.projects = setAt s.projects pid (some
        { p with status := .rejected, verificationTime := t, verifier := sender }) := by
  unfold rejectProject at h
  split at h
  · exact absurd h (by simp)
  split at h
  · exact absurd h (by simp)
  rename_i p hp
  split at h
  · exact absurd h (by simp)
  injection h with h1
  exact ⟨p, hp, by rw [← h1]⟩

theorem lockProject_ok_elim (s : RegistryState) (sender : Address)
    (pid : String) (s1 : RegistryState)
    (h : lockProject s sender pid = .ok s1) :
    ∃ p, s.projects pid = some p ∧
      s1.projects = setAt s.projects pid (some { p with status := .locked }) := by
  unfold lockProject at h
  split at h
  · exact absurd h (by simp)
  split at h
  · exact absurd h (by simp)
  rename_i p hp
  injection h with h1
  exact ⟨p, hp, by rw [← h1]⟩

theorem unlockProject_ok_elim (s : RegistryState) (sender : Address)
    (pid : String) (s1 : RegistryState)
    (h : unlockProject s sender pid = .ok s1) :
    ∃ p, s.projects pid = some p ∧
      s1.projects = setAt s.projects pid (some { p with status := .pending }) := by
  unfold unlockProject at h
  split at h
  · exact absurd h (by simp)
  split at h
  · exact absurd h (by simp)
  rename_i p hp
  split at h
  · exact absurd h (by simp)
  injection h with h1
  exact ⟨p, hp, by rw [← h1]⟩

theorem verifyProjectAndMintT_ok_elim (c : ChainState) (sender : Address)
    (pid : String) (credits : Nat) (uri eco : String) (t : Nat) (c1 : ChainState)
    (h : (verifyProjectAndMintT c sender pid credits uri eco t).1 = .ok c1) :
    credits ≠ 0 ∧ ∃ p2 : RegisteredProject, p2.status = .verified ∧
      p2.carbonCredits = credits ∧
      c1.registry.projects = setAt c.registry.projects pid (some p2) := by
  unfold verifyProjectAndMintT at h
  split at h
  · exact absurd h (by simp)
  split at h
  · exact absurd h (by simp)
  rename_i project hp
  split at h
  · exact absurd h (by simp)
  split at h
  · exact absurd h (by simp)
  rename_i hcr
  split at h
  · exact absurd h (by simp)
  rename_i token1 htok
  split at h
  · exact absurd h (by simp)
  rename_i pair cert1 nftId hcert
  simp only [Except.ok.injEq] at h
  refine ⟨hcr, ?_⟩
  refine ⟨{ project with
    status := .verified, verificationTime := t,
    verifier := sender, carbonCredits := credits, nftTokenId := nftId,
    nftMinted := true }, rfl, rfl, ?_⟩
  rw [← h]

end CarbonRegistry

theorem runOp_projects_cases (c : ChainState) (op : Op) :
    (runOp c op).registry.projects = c.registry.projects ∨
    ∃ pid q, (runOp c op).registry.projects =
        setAt c.registry.projects pid (some q) ∧
      (q.status ≠ CarbonRegistry.ProjectStatus.verified ∨ 0 < q.carbonCredits) := by
  cases op with
  | register sender pid area loc lat lng ipfs t =>
    cases hr : CarbonRegistry.registerProject c.registry sender pid area loc lat lng ipfs t with
    | error e => left; simp [runOp, applyOp, withRegistry, hr]
    | ok s1 =>
      right
      obtain ⟨_, _, _, _, _, hs1⟩ :=
        CarbonRegistry.registerProject_ok_elim _ _ _ _ _ _ _ _ _ _ hr
      refine ⟨pid, CarbonRegistry.newProject sender pid area loc lat lng ipfs t, ?_, ?_⟩
      · simp [runOp, applyOp, withRegistry, hr, hs1, CarbonRegistry.registeredState]
      · left
        simp [CarbonRegistry.newProject]
  | verifyAndMint sender pid credits uri eco t =>
    cases hr : CarbonRegistry.verifyProjectAndMint c sender pid credits uri eco t with
    | error e => left; simp [runOp, applyOp, hr]
    | ok c1 =>
      right
      obtain ⟨hcr, p2, hst, hcred, hproj⟩ :=
        CarbonRegistry.verifyProjectAndMintT_ok_elim c sender pid credits uri eco t c1 hr
      refine ⟨pid, p2, ?_, Or.inr (by omega)⟩
      have : runOp c (.verifyAndMint sender pid credits uri eco t) = c1 := by
        simp [runOp, applyOp, hr]
      rw [this, hproj]
  | reject sender pid t =>
    cases hr : CarbonRegistry.rejectProject c.registry sender pid t with
    | error e => left; simp [runOp, applyOp, withRegistry, hr]
    | ok s1 =>
      right
      obtain ⟨p, hp, hs1⟩ := CarbonRegistry.rejectProject_ok_elim _ _ _ _ _ hr
      refine ⟨pid, { p with
        status := .rejected, verificationTime := t, verifier := sender }, ?_, ?_⟩
      · simp [runOp, applyOp, withRegistry, hr, hs1]
      · left; simp
  | lock sender pid =>
    cases hr : CarbonRegistry.lockProject c.registry sender pid with
    | error e => left; simp [runOp, applyOp, withRegistry, hr]
    | ok s1 =>
      right
      obtain ⟨p, hp, hs1⟩ := CarbonRegistry.lockProject_ok_elim _ _ _ _ hr
      refine ⟨pid, { p with status := .locked }, ?_, ?_⟩
      · simp [runOp, applyOp, withRegistry, hr, hs1]
      · left; simp
  | unlock sender pid =>
    cases hr : CarbonRegistry.unlockProject c.registry sender pid with
    | error e => left; simp [runOp, applyOp, withRegistry, hr]
    | ok s1 =>
      right
      obtain ⟨p, hp, hs1⟩ := CarbonRegistry.unlockProject_ok_elim _ _ _ _ hr
      refine ⟨pid, { p with status := .pending }, ?_, ?_⟩
      · simp [runOp, applyOp, withRegistry, hr, hs1]
      · left; simp
  | authorizeVerifier sender v =>
    cases hr : CarbonRegistry.authorizeVerifier c.registry sender v with
    | error e => left; simp [runOp, applyOp, withRegistry, hr]
    | ok s1 =>
      left
      have : s1.projects = c.registry.projects := by
        unfold CarbonRegistry.authorizeVerifier at hr
        split at hr
        · exact absurd hr (by simp)
        split at hr
        · exact absurd hr (by simp)
        injection hr with h1
        rw [← h1]
      simp [runOp, applyOp, withRegistry, hr, this]
  | revokeVerifier sender v =>
    cases hr : CarbonRegistry.revokeVerifier c.registry sender v with
    | error e => left; simp [runOp, applyOp, withRegistry, hr]
    | ok s1 =>
      left
      have : s1.projects = c.registry.projects := by
        unfold CarbonRegistry.revokeVerifier at hr
        split at hr
        · exact absurd hr (by simp)
        injection hr with h1
        rw [← h1]
      simp [runOp, applyOp, withRegistry, hr, this]
  | grantAdminRole sender a =>
    cases hr : BlueCarbon.grantAdminRole c.token sender a with
    | error e => left; simp [runOp, applyOp, withToken, hr]
    | ok s1 => left; simp [runOp, applyOp, withToken, hr]
  | grantNGORole sender n =>
    cases hr : BlueCarbon.grantNGORole c.token sender n with
    | error e => left; simp [runOp, applyOp, withToken, hr]
    | ok s1 => left; simp [runOp, applyOp, withToken, hr]
  | tokenMintDirect sender pid ngo credits =>
    cases hr : BlueCarbon.verifyProjectAndMint c.token sender pid ngo credits with
    | error e => left; simp [runOp, applyOp, withToken, hr]
    | ok s1 => left; simp [runOp, applyOp, withToken, hr]
  | retireCredits sender amount =>
    cases hr : BlueCarbon.retireCredits c.token sender amount with
    | error e => left; simp [runOp, applyOp, withToken, hr]
    | ok s1 => left; simp [runOp, applyOp, withToken, hr]
  | certMintDirect sender pid loc area credits eco ben uri t =>
    cases hr : NFTCertificate.mintCertificate c.cert sender pid loc area credits eco ben uri t with
    | error e => left; simp [runOp, applyOp, hr]
    | ok pr =>
      obtain ⟨s1, tk⟩ := pr
      left
      simp [runOp, applyOp, hr]
  | certBurn tokenId =>
    cases hr : NFTCertificate.burn c.cert tokenId with
    | error e => left; simp [runOp, applyOp, withCert, hr]
    | ok s1 => left; simp [runOp, applyOp, withCert, hr]
  | certTransferOwnership sender newOwner =>
    cases hr : NFTCertificate.transferOwnership c.cert sender newOwner with
    | error e => left; simp [runOp, applyOp, withCert, hr]
    | ok s1 => left; simp [runOp, applyOp, withCert, hr]

/-- Invariant of the registry: every stored Verified project carries a
positive credited amount. -/
def VerifiedPositive (c : ChainState) : Prop :=
  ∀ pid p, c.registry.projects pid = some p →
    p.status = CarbonRegistry.ProjectStatus.verified → 0 < p.carbonCredits

theorem verifiedPositive_runOp (c : ChainState) (op : Op)
    (h : VerifiedPositive c) : VerifiedPositive (runOp c op) := by
  rcases runOp_projects_cases c op with heq | ⟨pid, q, heq, hq⟩
  · intro pid1 p hp hs
    rw [heq] at hp
    exact h pid1 p hp hs
  · intro pid1 p hp hs
    rw [heq] at hp
    by_cases e : pid1 = pid
    · subst e
      rw [setAt_same] at hp
      injection hp with hp1
      subst hp1
      rcases hq with h1 | h2
      · exact absurd hs h1
      · exact h2
    · rw [setAt_other _ _ _ _ e] at hp
      exact h pid1 p hp hs

theorem reachable_verifiedPositive (c : ChainState) (h : Reachable c) :
    VerifiedPositive c := by
  induction h with
  | init d r =>
    intro pid p hp _
    simp [initState] at hp
  | step _ op ih => exact verifiedPositive_runOp _ op ih

namespace DatabaseStorage

theorem insertByTimestampDesc_perm (e : AuditLog) (l : List AuditLog) :
    List.Perm (insertByTimestampDesc e l) (e :: l) := by
  induction l with
  | nil => simp [insertByTimestampDesc]
  | cons x xs ih =>
    unfold insertByTimestampDesc
    split
    · exact (ih.cons x).trans (List.Perm.swap e x xs)
    · exact List.Perm.refl _

/-- Descending timestamp order, the order of the SQL desc clause. -/
def SortedDesc (l : List AuditLog) : Prop :=
  List.Pairwise (fun a b => b.timestamp ≤ a.timestamp) l

theorem insertByTimestampDesc_sorted (e : AuditLog) (l : List AuditLog)
    (h : SortedDesc l) : SortedDesc (insertByTimestampDesc e l) := by
  induction l with
  | nil =>
    simp [insertByTimestampDesc, SortedDesc]
  | cons x xs ih =>
    obtain ⟨hx, hxs⟩ := List.pairwise_cons.1 h
    unfold insertByTimestampDesc
    split
    · rename_i hle
      refine List.pairwise_cons.2 ⟨?_, ih hxs⟩
      intro y hy
      rcases List.mem_cons.1 ((insertByTimestampDesc_perm e xs).mem_iff.1 hy) with hy1 | hy2
      · rw [hy1]; exact hle
      · exact hx y hy2
    · rename_i hgt
      refine List.pairwise_cons.2 ⟨?_, h⟩
      intro y hy
      rcases List.mem_cons.1 hy with hy1 | hy2
      · rw [hy1]; exact le_of_not_le hgt
      · exact le_trans (hx y hy2) (le_of_not_le hgt)

theorem orderByTimestampDesc_perm (l : List AuditLog) :
    List.Perm (orderByTimestampDesc l) l := by
  induction l with
  | nil => simp [orderByTimestampDesc]
  | cons x xs ih =>
    exact (insertByTimestampDesc_perm x _).trans (ih.cons x)

theorem orderByTimestampDesc_sorted (l : List AuditLog) :
    SortedDesc (orderByTimestampDesc l) := by
  induction l with
  | nil => simp [orderByTimestampDesc, SortedDesc]
  | cons x xs ih => exact insertByTimestampDesc_sorted x _ ih

end DatabaseStorage

namespace CarbonRegistry

/-- Revert semantics at the registry level: a failed call leaves the
storage unchanged. -/
def commit (s : RegistryState) (r : Except RegistryError RegistryState) :
    RegistryState :=
  match r with
  | .ok s1 => s1
  | .error _ => s

theorem verifyProjectAndMintT_ok_token (c : ChainState) (sender : Address)
    (pid : String) (credits : Nat) (uri eco : String) (t : Nat) (c1 : ChainState)
    (h : (verifyProjectAndMintT c sender pid credits uri eco t).1 = .ok c1) :
    ∃ project token1, c.registry.projects pid = some project ∧
      BlueCarbon.verifyProjectAndMint c.token c.registryAddr pid
        project.submitter credits = .ok token1 := by
  unfold verifyProjectAndMintT at h
  split at h
  · exact absurd h (by simp)
  split at h
  · exact absurd h (by simp)
  rename_i project hp
  split at h
  · exact absurd h (by simp)
  split at h
  · exact absurd h (by simp)
  split at h
  · exact absurd h (by simp)
  rename_i token1 htok
  exact ⟨project, token1, hp, htok⟩

end CarbonRegistry

theorem runOp_lock_token (c : ChainState) (sA : Address) (pid : String) :
    (runOp c (.lock sA pid)).token = c.token := by
  cases hr : CarbonRegistry.lockProject c.registry sA pid <;>
    simp [runOp, applyOp, withRegistry, hr]

theorem runOp_unlock_token (c : ChainState) (sB : Address) (pid : String) :
    (runOp c (.unlock sB pid)).token = c.token := by
  cases hr : CarbonRegistry.unlockProject c.registry sB pid <;>
    simp [runOp, applyOp, withRegistry, hr]

theorem runOp_verify_token_of_verified (c : ChainState) (sV : Address)
    (pid : String) (credits : Nat) (uri eco : String) (t : Nat)
    (h : c.token.verifiedProjects pid = true) :
    (runOp c (.verifyAndMint sV pid credits uri eco t)).token = c.token := by
  cases hr : CarbonRegistry.verifyProjectAndMint c sV pid credits uri eco t with
  | error e =>
    have hr1 : (CarbonRegistry.verifyProjectAndMintT c sV pid credits uri eco t).1 =
        Except.error e := hr
    simp [runOp, applyOp, CarbonRegistry.verifyProjectAndMint, hr1]
  | ok c1 =>
    exfalso
    obtain ⟨project, token1, _, htok⟩ :=
      CarbonRegistry.verifyProjectAndMintT_ok_token c sV pid credits uri eco t c1 hr
    exact BlueCarbon.verifyProjectAndMint_not_ok_of_verified c.token c.registryAddr
      pid project.submitter credits h token1 htok

/-- Deployment used in the concrete scenarios: account 1 deploys all three
contracts, account 2 is the registry contract address. -/
def demoChain0 : ChainState := initState 1 2

/-- Account 1 grants the token admin role to the registry address. -/
def demoChain1 : ChainState := runOp demoChain0 (.grantAdminRole 1 2)

/-- Account 1 transfers certificate ownership to the registry address. -/
def demoChain2 : ChainState := runOp demoChain1 (.certTransferOwnership 1 2)

/-- NGO account 7 registers project P1 at latitude 10.0, longitude 20.0,
5 hectares, with evidence hash h1. -/
def demoChain3 : ChainState :=
  runOp demoChain2 (.register 7 "P1" 5 "Bay" "10.0" "20.0" "h1" 100)

/-- Verifier account 1 verifies P1 and mints 40 credits plus the
certificate. -/
def demoChain4 : ChainState :=
  runOp demoChain3 (.verifyAndMint 1 "P1" 40 "uri" "mangrove" 200)

/-- The stored record of P1 after successful verification. -/
def demoVerifiedProject : CarbonRegistry.RegisteredProject :=
  { projectId := "P1", submitter := 7, areaHectares := 5, location := "Bay",
    locationHash := ("10.0", "20.0", 5), dataHash := ("P1", "h1", 7),
    status := .verified, submissionTime := 100, verificationTime := 200,
    verifier := 1, carbonCredits := 40, nftTokenId := 0, nftMinted := true }

/-- The registry storage right after deployment by account 1. -/
def demoRegistry0 : CarbonRegistry.RegistryState := (initState 1 2).registry

/-- C5 (amended): DatabaseStorage.getAuditLogs returns exactly the stored
entries matching the optional project filter, ordered by timestamp with the
newest entry first (descending order, from the SQL desc clause), not oldest
first. -/
theorem getAuditLogs_matching_desc (logs : List DatabaseStorage.AuditLog)
    (projectId : Option String) :
    List.Perm (DatabaseStorage.getAuditLogs logs projectId)
      (match projectId with
       | some pid => logs.filter (fun l => l.projectId == pid)
       | none => logs) ∧
    DatabaseStorage.SortedDesc (DatabaseStorage.getAuditLogs logs projectId) := by
  cases projectId with
  | none =>
    exact ⟨DatabaseStorage.orderByTimestampDesc_perm _,
      DatabaseStorage.orderByTimestampDesc_sorted _⟩
  | some pid =>
    exact ⟨DatabaseStorage.orderByTimestampDesc_perm _,
      DatabaseStorage.orderByTimestampDesc_sorted _⟩

/-- An early audit entry for project P1. -/
def demoAuditOld : DatabaseStorage.AuditLog :=
  { projectId := "P1", userId := "u1", action := "submitted", timestamp := 1 }

/-- A later audit entry for project P1. -/
def demoAuditNew : DatabaseStorage.AuditLog :=
  { projectId := "P1", userId := "u2", action := "verified", timestamp := 2 }

/-- C5 counterexample: querying the audit trail of P1 over the appended
sequence [old, new] returns the newest entry first, not the oldest, so the
query is not ordered oldest first as claimed. -/
theorem getAuditLogs_oldest_first_counterexample :
    DatabaseStorage.getAuditLogs [demoAuditOld, demoAuditNew] (some "P1") =
      [demoAuditNew, demoAuditOld] ∧
    demoAuditOld.timestamp < demoAuditNew.timestamp ∧
    demoAuditNew ≠ demoAuditOld := by
  refine ⟨by decide, by decide, by decide⟩

/-- C7 (amended): the code computes no merged three-way recommendation with
0.6 and 0.3 thresholds. The vision analyzer alone classifies its result as
verified exactly when no anomaly is flagged and the confidence is at least
0.5 (the 0.8-with-mangrove-characteristics branch is subsumed), suspicious
otherwise; independently, the vegetation-index validator reports validated
exactly when the average NDVI exceeds 0.3. -/
theorem advisory_threshold_characterization (a : AiVerifier.VisionAnalysis)
    (ndvi : ℚ) :
    (AiVerifier.verificationStatus a = .verified ↔
      a.anomaliesDetected = false ∧ 0.5 ≤ a.verificationConfidence) ∧
    (GisService.validated ndvi = true ↔ 0.3 < ndvi) := by
  constructor
  · unfold AiVerifier.verificationStatus
    split
    · rename_i hb
      simp only [true_iff]
      exact ⟨hb.2.2, le_trans (by norm_num) hb.1⟩
    · split
      · rename_i hb1 hb2
        simp only [true_iff]
        exact ⟨hb2.2, hb2.1⟩
      · rename_i hb1 hb2
        constructor
        · intro hc
          exact absurd hc (by simp)
        · intro hc
          exact absurd ⟨hc.2, hc.1⟩ hb2
  · simp [GisService.validated]

/-- C7 counterexample: at vision confidence 0.5 with no anomaly, and at
average NDVI 0.31, the code produces its approve-tier outcomes (vision
verified and GIS validated) although neither score exceeds 0.6 — both lie
in the band the claim assigns to recommend-review — refuting the claimed
approve-exactly-when-both-exceed-0.6 merge. -/
theorem advisory_merge_counterexample :
    AiVerifier.verificationStatus
      { verificationConfidence := 0.5, mangroveCharacteristics := false,
        anomaliesDetected := false } = .verified ∧
    GisService.validated 0.31 = true ∧
    ¬ (0.6 : ℚ) < 0.5 ∧ ¬ (0.6 : ℚ) < 0.31 := by
  refine ⟨?_, ?_, by norm_num, by norm_num⟩
  · unfold AiVerifier.verificationStatus
    rw [if_neg (by norm_num), if_pos (by norm_num)]
  · unfold GisService.validated
    norm_num

/-- C8 (confirmed): in every execution of CarbonRegistry.verifyProjectAndMint
the external-call trace is empty, or just the fungible mint, or the
fungible mint followed by the certificate mint with the fungible mint
having succeeded on the pre-state; the certificate mint is never invoked
first and never invoked without a prior successful fungible mint. -/
theorem fungible_before_certificate (c : ChainState) (sender : Address)
    (pid : String) (credits : Nat) (uri eco : String) (t : Nat) :
    (CarbonRegistry.verifyProjectAndMintT c sender pid credits uri eco t).2 = [] ∨
    (CarbonRegistry.verifyProjectAndMintT c sender pid credits uri eco t).2 =
      [.fungibleMint] ∨
    ((CarbonRegistry.verifyProjectAndMintT c sender pid credits uri eco t).2 =
        [.fungibleMint, .certificateMint] ∧
      ∃ project token1, c.registry.projects pid = some project ∧
        BlueCarbon.verifyProjectAndMint c.token c.registryAddr pid
          project.submitter credits = .ok token1) := by
  unfold CarbonRegistry.verifyProjectAndMintT
  split
  · left; rfl
  split
  · left; rfl
  rename_i project hp
  split
  · left; rfl
  split
  · left; rfl
  split
  · right; left; rfl
  rename_i token1 htok
  split
  · right; right
    exact ⟨rfl, project, token1, hp, htok⟩
  · right; right
    exact ⟨rfl, project, token1, hp, htok⟩


/-- C6 (confirmed): registerProject fails with an InvalidInput-class revert
when the area is zero or the project id is already taken (or empty), with
the DuplicateLocation revert when the location fingerprint is already
reserved, and with the DuplicateEvidence revert when the evidence
fingerprint is already reserved; every failure reverts and leaves the
registry unchanged; success stores the Pending project and reserves both
fingerprints in the same atomic state update. -/
theorem registerProject_contract_spec (s : CarbonRegistry.RegistryState)
    (sender : Address) (pid : String) (area : Nat) (loc lat lng ipfs : String)
    (t : Nat) :
    (area = 0 ∨ (s.projects pid).isSome = true →
      ∃ e, CarbonRegistry.registerProject s sender pid area loc lat lng ipfs t =
        .error e ∧ e.isInvalidInput = true) ∧
    (pid ≠ "" → area ≠ 0 → s.projects pid = none →
      s.usedLocationHashes (lat, lng, area) = true →
      CarbonRegistry.registerProject s sender pid area loc lat lng ipfs t =
        .error .locationAlreadyRegistered) ∧
    (pid ≠ "" → area ≠ 0 → s.projects pid = none →
      s.usedLocationHashes (lat, lng, area) = false →
      s.usedDataHashes (pid, ipfs, sender) = true →
      CarbonRegistry.registerProject s sender pid area loc lat lng ipfs t =
        .error .dataAlreadySubmitted) ∧
    (∀ e, CarbonRegistry.registerProject s sender pid area loc lat lng ipfs t =
        .error e →
      CarbonRegistry.commit s
        (CarbonRegistry.registerProject s sender pid area loc lat lng ipfs t) = s) ∧
    (∀ s1, CarbonRegistry.registerProject s sender pid area loc lat lng ipfs t =
        .ok s1 →
      s1.projects pid =
        some (CarbonRegistry.newProject sender pid area loc lat lng ipfs t) ∧
      (CarbonRegistry.newProject sender pid area loc lat lng ipfs t).status =
        .pending ∧
      s1.usedLocationHashes (lat, lng, area) = true ∧
      s1.usedDataHashes (pid, ipfs, sender) = true) ∧
    (pid ≠ "" → area ≠ 0 → s.projects pid = none →
      s.usedLocationHashes (lat, lng, area) = false →
      s.usedDataHashes (pid, ipfs, sender) = false →
      CarbonRegistry.registerProject s sender pid area loc lat lng ipfs t =
        .ok (CarbonRegistry.registeredState s sender pid area loc lat lng ipfs t)) := by
  refine ⟨?_, ?_, ?_, ?_, ?_, ?_⟩
  · intro h
    by_cases hp0 : pid = ""
    · exact ⟨.emptyProjectId, by simp [CarbonRegistry.registerProject, hp0], rfl⟩
    · by_cases ha : area = 0
      · refine ⟨.zeroArea, ?_, rfl⟩
        unfold CarbonRegistry.registerProject
        rw [if_neg hp0, if_pos ha]
      · rcases h with h1 | h2
        · exact absurd h1 ha
        · refine ⟨.projectIdExists, ?_, rfl⟩
          unfold CarbonRegistry.registerProject
          rw [if_neg hp0, if_neg ha, if_pos h2]
  · intro h1 h2 h3 h4
    exact CarbonRegistry.registerProject_location_conflict s sender pid area
      loc lat lng ipfs t h1 h2 h3 h4
  · intro h1 h2 h3 h4 h5
    unfold CarbonRegistry.registerProject
    rw [if_neg h1, if_neg h2, if_neg (by simp [h3]), if_neg (by simp [h4]),
      if_pos h5]
  · intro e he
    simp [CarbonRegistry.commit, he]
  · intro s1 h
    obtain ⟨_, _, _, _, _, hs1⟩ :=
      CarbonRegistry.registerProject_ok_elim _ _ _ _ _ _ _ _ _ _ h
    subst hs1
    refine ⟨?_, rfl, ?_, ?_⟩
    · simp [CarbonRegistry.registeredState, setAt_same]
    · simp [CarbonRegistry.registeredState, setAt_same]
    · simp [CarbonRegistry.registeredState, setAt_same]
  · intro h1 h2 h3 h4 h5
    exact CarbonRegistry.registerProject_eq_ok s sender pid area loc lat lng
      ipfs t h1 h2 h3 h4 h5

/-- C6 witness: registering P1 on the empty registry succeeds and produces
exactly the registered state with the Pending record and both fingerprints
reserved. -/
theorem registerProject_contract_witness :
    CarbonRegistry.registerProject demoRegistry0 7 "P1" 5 "Bay" "10.0" "20.0" "h1" 100 =
      .ok (CarbonRegistry.registeredState demoRegistry0 7 "P1" 5 "Bay" "10.0" "20.0" "h1" 100) ∧
    (CarbonRegistry.registeredState demoRegistry0 7 "P1" 5 "Bay" "10.0" "20.0" "h1" 100).projects "P1" =
      some (CarbonRegistry.newProject 7 "P1" 5 "Bay" "10.0" "20.0" "h1" 100) := by
  have hok := (registerProject_contract_spec demoRegistry0 7 "P1" 5 "Bay" "10.0" "20.0" "h1" 100).2.2.2.2.2
    (by decide) (by decide) rfl rfl rfl
  have hpost := (registerProject_contract_spec demoRegistry0 7 "P1" 5 "Bay" "10.0" "20.0" "h1" 100).2.2.2.2.1
    _ hok
  exact ⟨hok, hpost.1⟩

/-- C2 (confirmed): when a registration succeeds, any later registration
presenting the same location fingerprint (same latitude, longitude and
area) fails with the DuplicateLocation revert and creates nothing, even
with a different project id, submitter and evidence hash; so at most one of
the two attempts succeeds. -/
theorem duplicate_location_at_most_one (s : CarbonRegistry.RegistryState)
    (sndA sndB : Address) (pidA pidB : String) (area : Nat)
    (locA locB lat lng ipfsA ipfsB : String) (tA tB : Nat)
    (s1 : CarbonRegistry.RegistryState)
    (hA : CarbonRegistry.registerProject s sndA pidA area locA lat lng ipfsA tA = .ok s1)
    (hBpid : pidB ≠ "") (hBfresh : s1.projects pidB = none) :
    CarbonRegistry.registerProject s1 sndB pidB area locB lat lng ipfsB tB =
      .error .locationAlreadyRegistered ∧
    CarbonRegistry.commit s1
      (CarbonRegistry.registerProject s1 sndB pidB area locB lat lng ipfsB tB) = s1 := by
  obtain ⟨h1, h2, h3, h4, h5, h6⟩ :=
    CarbonRegistry.registerProject_ok_elim _ _ _ _ _ _ _ _ _ _ hA
  have hused : s1.usedLocationHashes (lat, lng, area) = true := by
    rw [h6]
    simp [CarbonRegistry.registeredState, setAt_same]
  have hB := CarbonRegistry.registerProject_location_conflict s1 sndB pidB area
    locB lat lng ipfsB tB hBpid h2 hBfresh hused
  exact ⟨hB, by simp [CarbonRegistry.commit, hB]⟩

/-- C2 witness: after P1 is registered at (10.0, 20.0, 5 ha) with evidence
h1, registering P2 at the same coordinates with evidence h2 fails with the
DuplicateLocation revert. -/
theorem duplicate_location_witness :
    CarbonRegistry.registerProject
      (CarbonRegistry.registeredState demoRegistry0 7 "P1" 5 "Bay" "10.0" "20.0" "h1" 100)
      8 "P2" 5 "Other" "10.0" "20.0" "h2" 200 = .error .locationAlreadyRegistered :=
  (duplicate_location_at_most_one demoRegistry0 7 8 "P1" "P2" 5 "Bay" "Other"
    "10.0" "20.0" "h1" "h2" 100 200 _ rfl (by decide) rfl).1

/-- C3 (amended): in the on-chain registry the invariant holds — the only
operation that sets a project Verified is verifyProjectAndMint, which
rejects a zero credits amount, so in every reachable state every Verified
project has positive credits; the server verify route, however, performs no
credited-amount check: with an absent or zero carbonCredits field it still
marks the project verified and leaves the stored credits unchanged. -/
theorem verified_credits_positive_onchain_and_route :
    (∀ c, Reachable c → VerifiedPositive c) ∧
    (∀ (p : Routes.ServerProject) (vb : String) (now : Nat),
      Routes.verifyProject p "verified" vb none none now =
        .ok { p with
            status := "verified", verifiedBy := some vb, verifiedAt := some now }
          { projectId := p.id, userId := vb, action := "verified",
            timestamp := now }) := by
  constructor
  · exact fun c h => reachable_verifiedPositive c h
  · intro p vb now
    simp [Routes.verifyProject, Routes.truthyCredits, Routes.truthyHash]

/-- A project row with the database default credited amount 0. -/
def demoPendingProject : Routes.ServerProject :=
  { id := "p1", status := "pending", verifiedBy := none, verifiedAt := none,
    carbonCredits := 0, blockchainTxHash := none }

/-- C3 counterexample: the server verify route accepts status verified with
a zero carbonCredits field; the resulting row is verified with credited
amount 0, which is not positive, so this Verified-setting operation does
not reject a non-positive credited amount. -/
theorem route_zero_credit_verify_counterexample :
    (Routes.verifyProject demoPendingProject "verified" "admin" (some 0) none 42).statusCredits =
      some ("verified", 0) ∧ ¬ (0 : ℚ) < 0 :=
  ⟨rfl, lt_irrefl 0⟩

/-- C3 witness: the verified project P1 in the reachable state demoChain4
carries 40 credits, which is positive. -/
theorem verified_credits_witness :
    demoChain4.registry.projects "P1" = some demoVerifiedProject ∧
    0 < demoVerifiedProject.carbonCredits :=
  ⟨rfl, verified_credits_positive_onchain_and_route.1 demoChain4
    (Reachable.step (Reachable.step (Reachable.step (Reachable.step
      (Reachable.init 1 2) _) _) _) _)
    "P1" demoVerifiedProject rfl rfl⟩

/-- C4 (amended): lockProject moves an existing project to Locked from any
status and does not save the prior status anywhere; unlockProject is
permitted only from Locked and always sets Pending; so lock followed by
unlock restores the pre-lock status exactly when that status was Pending. -/
theorem lock_unlock_behavior (s : CarbonRegistry.RegistryState)
    (sender : Address) (pid : String) (p : CarbonRegistry.RegisteredProject)
    (hown : sender = s.owner) (hp : s.projects pid = some p) :
    (CarbonRegistry.lockThenUnlock s sender pid).map
        (fun s2 => CarbonRegistry.projectStatus s2 pid) = .ok (some .pending) ∧
    (p.status ≠ .locked →
      CarbonRegistry.unlockProject s sender pid = .error .projectNotLocked) ∧
    ((CarbonRegistry.lockThenUnlock s sender pid).map
        (fun s2 => CarbonRegistry.projectStatus s2 pid) = .ok (some p.status) ↔
      p.status = .pending) := by
  have hnot : ¬ sender ≠ s.owner := by simp [hown]
  have hlock : CarbonRegistry.lockProject s sender pid =
      .ok { s with projects := setAt s.projects pid (some { p with status := .locked }) } := by
    unfold CarbonRegistry.lockProject
    rw [if_neg hnot, hp]
  have hs1p : ({ s with
      projects := setAt s.projects pid (some { p with status := .locked }) } :
        CarbonRegistry.RegistryState).projects pid =
      some { p with status := .locked } := by
    simp [setAt_same]
  have hmain : (CarbonRegistry.lockThenUnlock s sender pid).map
      (fun s2 => CarbonRegistry.projectStatus s2 pid) = .ok (some .pending) := by
    unfold CarbonRegistry.lockThenUnlock
    rw [hlock]
    show (CarbonRegistry.unlockProject _ sender pid).map
      (fun s2 => CarbonRegistry.projectStatus s2 pid) = .ok (some .pending)
    unfold CarbonRegistry.unlockProject
    rw [if_neg hnot, hs1p]
    simp [CarbonRegistry.projectStatus, setAt_same, Except.map]
  refine ⟨hmain, ?_, ?_⟩
  · intro hne
    unfold CarbonRegistry.unlockProject
    rw [if_neg hnot, hp]
    simp [hne]
  · rw [hmain]
    constructor
    · intro hc
      injection hc with hc1
      injection hc1 with hc2
      exact hc2.symm
    · intro hc
      rw [hc]

/-- The deployed registry holding the already-verified project P1. -/
def demoRegVerified : CarbonRegistry.RegistryState :=
  { demoRegistry0 with
    projects := setAt demoRegistry0.projects "P1" (some demoVerifiedProject) }

/-- C4 counterexample: project P1 is Verified; the owner locks then unlocks
it and it comes back Pending, not Verified, so lock followed by unlock does
not restore the pre-lock status. -/
theorem lock_unlock_verified_counterexample :
    CarbonRegistry.projectStatus demoRegVerified "P1" = some .verified ∧
    (CarbonRegistry.lockThenUnlock demoRegVerified 1 "P1").map
      (fun s2 => CarbonRegistry.projectStatus s2 "P1") = .ok (some .pending) ∧
    CarbonRegistry.ProjectStatus.pending ≠ .verified :=
  ⟨rfl, rfl, by decide⟩

/-- C4 witness: for the Verified project P1, the lock-unlock round trip
restores the pre-lock status if and only if that status was Pending. -/
theorem lock_unlock_witness :
    ((CarbonRegistry.lockThenUnlock demoRegVerified 1 "P1").map
        (fun s2 => CarbonRegistry.projectStatus s2 "P1") =
      .ok (some demoVerifiedProject.status) ↔
      demoVerifiedProject.status = .pending) :=
  (lock_unlock_behavior demoRegVerified 1 "P1" demoVerifiedProject rfl rfl).2.2

/-- C1 (amended): when the fungible mint succeeds and the subsequent
certificate mint fails, the entire verifyProjectAndMint transaction
reverts: the call returns the certificate failure, each external mint was
invoked exactly once (no retry), and the state is completely unchanged — in
particular the project remains Pending (the ProjectStatus enum has no
Verifying member) and no audit entry of any kind is recorded (the contract
keeps no audit log); the fungible mint is rolled back with the rest of the
transaction. -/
theorem certificate_failure_reverts (c : ChainState) (sender : Address)
    (pid : String) (credits : Nat) (uri eco : String) (t : Nat)
    (project : CarbonRegistry.RegisteredProject)
    (token1 : BlueCarbon.TokenState) (e : NFTCertificate.CertError)
    (hauth : c.registry.authorizedVerifiers sender = true)
    (hp : c.registry.projects pid = some project)
    (hst : project.status = .pending)
    (hcr : credits ≠ 0)
    (htok : BlueCarbon.verifyProjectAndMint c.token c.registryAddr pid
      project.submitter credits = .ok token1)
    (hcert : NFTCertificate.mintCertificate c.cert c.registryAddr pid
      project.location project.areaHectares credits eco project.submitter
      uri t = .error e) :
    CarbonRegistry.verifyProjectAndMintT c sender pid credits uri eco t =
      (.error (.certFailure e), [.fungibleMint, .certificateMint]) ∧
    runOp c (.verifyAndMint sender pid credits uri eco t) = c ∧
    (runOp c (.verifyAndMint sender pid credits uri eco t)).registry.projects pid =
      some project := by
  have hmain : CarbonRegistry.verifyProjectAndMintT c sender pid credits uri eco t =
      (.error (.certFailure e), [.fungibleMint, .certificateMint]) := by
    unfold CarbonRegistry.verifyProjectAndMintT
    rw [if_neg (by simp [hauth]), hp]
    simp [hst, hcr, htok, hcert]
  have h1 : (CarbonRegistry.verifyProjectAndMintT c sender pid credits uri eco t).1 =
      .error (.certFailure e) := by rw [hmain]
  have hrun : runOp c (.verifyAndMint sender pid credits uri eco t) = c := by
    simp [runOp, applyOp, CarbonRegistry.verifyProjectAndMint, h1]
  exact ⟨hmain, hrun, by rw [hrun]; exact hp⟩

/-- A deployed system in which project P1 is Pending in the registry, the
token contract has not yet minted for P1, but a certificate for P1 was
already minted directly, so the certificate mint inside verification will
fail while the fungible mint succeeds. -/
def demoCertConflictChain : ChainState :=
  runOp (runOp demoChain2 (.register 7 "P1" 5 "Bay" "10.0" "20.0" "h1" 100))
    (.certMintDirect 2 "P1" "Bay" 5 33 "mangrove" 7 "uri0" 150)

/-- The BlueCarbon storage after the fungible mint that succeeds in the C1
scenario. -/
def demoTokenMinted : BlueCarbon.TokenState :=
  match BlueCarbon.verifyProjectAndMint demoCertConflictChain.token 2 "P1" 7 40 with
  | .ok s => s
  | .error _ => demoCertConflictChain.token

/-- C1 counterexample: in the concrete scenario the fungible mint succeeds
and the certificate mint fails, and afterwards the project status is
Pending — not a Verifying state, which does not exist in the enum — the
whole state is unchanged (so no audit entry was recorded, and the fungible
mint was rolled back), with each mint invoked exactly once. -/
theorem certificate_failure_counterexample :
    BlueCarbon.verifyProjectAndMint demoCertConflictChain.token 2 "P1" 7 40 =
      .ok demoTokenMinted ∧
    NFTCertificate.mintCertificate demoCertConflictChain.cert 2 "P1" "Bay" 5 40
      "mangrove" 7 "uri" 200 = .error .projectAlreadyCertified ∧
    CarbonRegistry.verifyProjectAndMintT demoCertConflictChain 1 "P1" 40 "uri"
      "mangrove" 200 =
      (.error (.certFailure .projectAlreadyCertified),
        [.fungibleMint, .certificateMint]) ∧
    runOp demoCertConflictChain (.verifyAndMint 1 "P1" 40 "uri" "mangrove" 200) =
      demoCertConflictChain ∧
    CarbonRegistry.projectStatus
      (runOp demoCertConflictChain
        (.verifyAndMint 1 "P1" 40 "uri" "mangrove" 200)).registry "P1" =
      some .pending :=
  ⟨rfl, rfl, rfl, rfl, rfl⟩

/-- C1 witness: the amended revert property instantiated on the concrete
conflict scenario. -/
theorem certificate_failure_reverts_witness :
    runOp demoCertConflictChain (.verifyAndMint 1 "P1" 40 "uri2" "mangrove" 201) =
      demoCertConflictChain :=
  (certificate_failure_reverts demoCertConflictChain 1 "P1" 40 "uri2" "mangrove" 201
    (CarbonRegistry.newProject 7 "P1" 5 "Bay" "10.0" "20.0" "h1" 100)
    demoTokenMinted .projectAlreadyCertified rfl rfl rfl (by decide) rfl rfl).2.1

/-- C9 (confirmed): once a project id is marked verified in the BlueCarbon
token contract, no later call of its verifyProjectAndMint for that id can
succeed; with an admin caller it reverts with the already-verified reason;
and even after the registry owner locks and unlocks the project (returning
it to Pending) a renewed registry verification leaves the token contract —
balances, supply and counters — completely unchanged. -/
theorem fungible_mint_at_most_once (c : ChainState) (sA sB sV caller ngo : Address)
    (pid : String) (credits : Nat) (uri eco : String) (t : Nat)
    (h : c.token.verifiedProjects pid = true) :
    (∀ s1, BlueCarbon.verifyProjectAndMint c.token caller pid ngo credits ≠ .ok s1) ∧
    (c.token.adminRole caller = true →
      BlueCarbon.verifyProjectAndMint c.token caller pid ngo credits =
        .error .projectAlreadyVerified) ∧
    (runOp (runOp (runOp c (.lock sA pid)) (.unlock sB pid))
        (.verifyAndMint sV pid credits uri eco t)).token = c.token := by
  refine ⟨BlueCarbon.verifyProjectAndMint_not_ok_of_verified c.token caller pid
    ngo credits h, ?_, ?_⟩
  · intro hadm
    exact BlueCarbon.verifyProjectAndMint_already_verified c.token caller pid
      ngo credits hadm h
  · have h1 := runOp_lock_token c sA pid
    have h2 := runOp_unlock_token (runOp c (.lock sA pid)) sB pid
    have h3 : (runOp (runOp c (.lock sA pid)) (.unlock sB pid)).token.verifiedProjects pid = true := by
      rw [h2, h1]
      exact h
    rw [runOp_verify_token_of_verified _ sV pid credits uri eco t h3, h2, h1]

/-- C9 witness: in the reachable state demoChain4 the token contract has
P1 marked verified; locking, unlocking and re-verifying leaves the token
contract state unchanged. -/
theorem fungible_mint_at_most_once_witness :
    demoChain4.token.verifiedProjects "P1" = true ∧
    (runOp (runOp (runOp demoChain4 (.lock 1 "P1")) (.unlock 1 "P1"))
        (.verifyAndMint 1 "P1" 40 "uri" "mangrove" 300)).token = demoChain4.token :=
  ⟨rfl, (fungible_mint_at_most_once demoChain4 1 1 1 1 7 "P1" 40 "uri"
    "mangrove" 300 rfl).2.2⟩

namespace NFTCertificate

theorem mintCertificate_ok (s : CertState) (sender : Address)
    (pid loc : String) (area credits : Nat) (eco : String) (ben : Address)
    (uri : String) (t : Nat)
    (hsend : sender = s.owner) (hcert : s.projectCertified pid = false)
    (hben : ben ≠ 0) (harea : area ≠ 0)
    (hfresh : s.owners s.tokenIdCounter = none) :
    ∃ s2, mintCertificate s sender pid loc area credits eco ben uri t =
        .ok (s2, s.tokenIdCounter) ∧
      s2.projectCertified pid = true ∧
      s2.tokenIdCounter = s.tokenIdCounter + 1 := by
  unfold mintCertificate
  rw [if_neg (by simp [hsend]), if_neg (by simp [hcert]), if_neg hben,
    if_neg harea]
  simp only [hfresh, Option.isSome_none, Bool.false_eq_true, if_false]
  exact ⟨_, rfl, by simp [setAt_same], rfl⟩

end NFTCertificate

/-- C10 (confirmed): burning a certificate token clears the certified flag
and the mappings of its owning project; afterwards mintCertificate for the
same project id succeeds again and issues a fresh token id distinct from
the burned one, certifying the project a second time. -/
theorem certificate_remintable_after_burn (s : NFTCertificate.CertState)
    (tokenId : Nat) (pd : NFTCertificate.PlantationData) (o : Address)
    (loc : String) (area credits : Nat) (eco : String) (ben : Address)
    (uri : String) (t : Nat)
    (hpd : s.tokenToProject tokenId = some pd)
    (hex : s.owners tokenId = some o)
    (hlt : tokenId < s.tokenIdCounter)
    (hfresh : s.owners s.tokenIdCounter = none)
    (hben : ben ≠ 0) (harea : area ≠ 0) :
    ∃ s1, NFTCertificate.burn s tokenId = .ok s1 ∧
      s1.projectCertified pd.projectId = false ∧
      s1.tokenToProject tokenId = none ∧
      ∃ s2, NFTCertificate.mintCertificate s1 s1.owner pd.projectId loc area
          credits eco ben uri t = .ok (s2, s.tokenIdCounter) ∧
        s.tokenIdCounter ≠ tokenId ∧
        s2.projectCertified pd.projectId = true := by
  have hne : s.tokenIdCounter ≠ tokenId := Nat.ne_of_gt hlt
  refine ⟨{ s with
      owners := setAt s.owners tokenId none,
      balances := setAt s.balances o (s.balances o - 1),
      tokenURIs := setAt s.tokenURIs tokenId none,
      tokenToProject := setAt s.tokenToProject tokenId none,
      projectToTokenId := setAt s.projectToTokenId pd.projectId 0,
      projectCertified := setAt s.projectCertified pd.projectId false },
    ?_, ?_, ?_, ?_⟩
  · unfold NFTCertificate.burn
    rw [hex]
    simp [hpd]
  · exact setAt_same _ _ _
  · exact setAt_same _ _ _
  · obtain ⟨s2, hmint, hcert2, hctr⟩ := NFTCertificate.mintCertificate_ok
      { s with
        owners := setAt s.owners tokenId none,
        balances := setAt s.balances o (s.balances o - 1),
        tokenURIs := setAt s.tokenURIs tokenId none,
        tokenToProject := setAt s.tokenToProject tokenId none,
        projectToTokenId := setAt s.projectToTokenId pd.projectId 0,
        projectCertified := setAt s.projectCertified pd.projectId false }
      _ pd.projectId loc area credits eco ben uri t rfl (setAt_same _ _ _)
      hben harea (by
        show setAt s.owners tokenId none s.tokenIdCounter = none
        rw [setAt_other _ _ _ _ hne]
        exact hfresh)
    exact ⟨s2, hmint, hne, hcert2⟩

/-- An NFTCertificate deployment owned by account 5 with nothing minted. -/
def demoCert0 : NFTCertificate.CertState :=
  { owner := 5, tokenIdCounter := 0, owners := fun _ => none,
    balances := fun _ => 0, tokenURIs := fun _ => none,
    projectToTokenId := fun _ => 0, tokenToProject := fun _ => none,
    projectCertified := fun _ => false }

/-- The certificate storage after minting the first certificate (token 0)
for project P1. -/
def demoCert1 : NFTCertificate.CertState :=
  match NFTCertificate.mintCertificate demoCert0 5 "P1" "Bay" 5 40 "mangrove" 7 "uri" 100 with
  | .ok (s, _) => s
  | .error _ => demoCert0

/-- The plantation record stored with token 0 of demoCert1. -/
def demoPlantation : NFTCertificate.PlantationData :=
  { projectId := "P1", location := "Bay", areaHectares := 5,
    carbonCredits := 40, plantationDate := 100, ecosystem := "mangrove",
    beneficiary := 7, verified := true }

/-- C10 witness: burning token 0 of the certified project P1 clears its
certified flag, and a second mintCertificate for P1 then succeeds with the
fresh token id 1. -/
theorem certificate_remintable_witness :
    ∃ s1, NFTCertificate.burn demoCert1 0 = .ok s1 ∧
      s1.projectCertified demoPlantation.projectId = false ∧
      s1.tokenToProject 0 = none ∧
      ∃ s2, NFTCertificate.mintCertificate s1 s1.owner demoPlantation.projectId
          "Bay" 5 41 "mangrove" 8 "uri2" 200 = .ok (s2, demoCert1.tokenIdCounter) ∧
        demoCert1.tokenIdCounter ≠ 0 ∧
        s2.projectCertified demoPlantation.projectId = true :=
  certificate_remintable_after_burn demoCert1 0 demoPlantation 7 "Bay" 5 41
    "mangrove" 8 "uri2" 200 rfl rfl (by decide) rfl (by decide) (by decide)
